import Mathlib

/-!
Shallow embedding of the hyperlane-xian contracts (mailbox.py,
interchaintoken.py, interchaintokenrouter.py) together with proofs of the
specified properties.  Amounts are modelled as rationals (contracting
decimals), contract storage as explicit records with function-valued
tables, and a raised Python exception as an Except.error result: a call
that returns Except.error commits no state mutation, because the host
ledger rolls the whole transaction back (spec section 5, all-or-nothing).
-/

namespace Hyperlane

/-- Pointwise update of a string-keyed table, modelling one Hash write. -/
def upd {α : Type} (f : String → α) (k : String) (v : α) : String → α :=
  fun x => if x = k then v else f x

/-- Pointwise update of an integer-keyed table. -/
def updI {α : Type} (f : Int → α) (k : Int) (v : α) : Int → α :=
  fun x => if x = k then v else f x

/-- Pointwise update of a two-key table, modelling writes such as
balances[owner, spender]. -/
def upd2 {α : Type} (f : String → String → α) (k1 k2 : String) (v : α) :
    String → String → α :=
  fun x y => if x = k1 ∧ y = k2 then v else f x y

/-- Decimal digit character, as Python prints digits. -/
def digitChar (d : Nat) : Char := Char.ofNat (48 + d)

/-- Digits of a natural number in base 10, most significant first.  The
explicit fuel keeps the recursion structural so the kernel can evaluate it. -/
def natDigits : Nat → Nat → List Char
  | 0, _ => []
  | fuel + 1, n =>
    if n = 0 then [] else natDigits fuel (n / 10) ++ [digitChar (n % 10)]

/-- Decimal string of a natural number, modelling Python str(int) on
non-negative values. -/
def natStr (n : Nat) : String :=
  if n = 0 then "0" else String.mk (natDigits (n + 1) n)

/-- Decimal string of an integer, modelling Python str(int). -/
def intStr (i : Int) : String :=
  if i < 0 then "-" ++ natStr i.natAbs else natStr i.natAbs

/-- Reads a digit string back into a number; a left inverse of natDigits. -/
def decodeDigits (l : List Char) : Nat :=
  l.foldl (fun a c => 10 * a + (c.toNat - 48)) 0

----------------------------------------------------------------------------
-- Message codec (mailbox.py: build_message, generate_message_id)
----------------------------------------------------------------------------

/-- Protocol version constant VERSION = 1. -/
def VERSION : Nat := 1

/-- Message record built by build_message. -/
structure Message where
  version : Nat
  nonce : Nat
  originDomain : Int
  sender : String
  destinationDomain : Int
  recipient : String
  body : String

/-- Canonical pre-hash string of generate_message_id: the Python f-string
"{version}-{nonce}-{originDomain}-{sender}-{destinationDomain}-{recipient}-{body}". -/
def messageStr (m : Message) : String :=
  natStr m.version ++ "-" ++ natStr m.nonce ++ "-" ++ intStr m.originDomain ++ "-" ++
    m.sender ++ "-" ++ intStr m.destinationDomain ++ "-" ++ m.recipient ++ "-" ++ m.body

/-- Models generate_message_id.  The Python code hex-encodes the UTF-8 bytes
of the canonical string and applies hashlib.sha256; that pipeline (an
injective byte encoding composed with a collision-resistant digest) is
abstracted as the parameter hash, over which theorems needing
collision-freedom quantify explicitly. -/
def generate_message_id (hash : String → String) (m : Message) : String :=
  hash (messageStr m)


----------------------------------------------------------------------------
-- String splitting and number parsing (Python str.split, int, decimal)
----------------------------------------------------------------------------

/-- Models Python str.split(sep) on character lists for a one-character
separator; structural so the kernel can evaluate it. -/
def splitChar (sep : Char) : List Char → List (List Char)
  | [] => [[]]
  | c :: cs =>
    let r := splitChar sep cs
    if c = sep then [] :: r
    else
      match r with
      | [] => [[c]]
      | h :: t => (c :: h) :: t

/-- Models Python str.split(sep) for a one-character separator. -/
def strSplit (sep : Char) (s : String) : List String :=
  (splitChar sep s.data).map String.mk

/-- Value of a decimal digit character, none for any other character. -/
def digitVal (c : Char) : Option Nat :=
  if 48 ≤ c.toNat ∧ c.toNat ≤ 57 then some (c.toNat - 48) else none

/-- Accumulates decimal digits left to right. -/
def parseNatAux : List Char → Nat → Option Nat
  | [], acc => some acc
  | c :: cs, acc =>
    match digitVal c with
    | some d => parseNatAux cs (10 * acc + d)
    | none => none

/-- Parses a non-empty all-digit string. -/
def parseNatL (l : List Char) : Option Nat :=
  if l = [] then none else parseNatAux l 0

/-- Models Python int(str): an optional minus sign followed by digits,
none where Python raises. -/
def toIntM (s : String) : Option Int :=
  match s.data with
  | '-' :: rest => (parseNatL rest).map (fun n => -(n : Int))
  | l => (parseNatL l).map (fun n => (n : Int))

----------------------------------------------------------------------------
-- Decimal amounts (contracting decimals), printing and parsing
----------------------------------------------------------------------------

/-- Fraction digits of r / den in base 10, up to the given fuel (contracting
decimals carry at most 30 fractional digits). -/
def fracDigits (den : Nat) : Nat → Nat → List Char
  | _, 0 => []
  | r, fuel + 1 =>
    if r = 0 then [] else digitChar (10 * r / den) :: fracDigits den (10 * r % den) fuel

/-- Models Python str() of a contracting decimal amount: integral values
print with no decimal point, non-integral values print as sign, integer
part, point and up to 30 fraction digits. -/
def decimalStr (q : Rat) : String :=
  if q.den = 1 then intStr q.num
  else
    (if q.num < 0 then "-" else "") ++ natStr (q.num.natAbs / q.den) ++ "." ++
      String.mk (fracDigits q.den (q.num.natAbs % q.den) 30)

/-- Models the contracting decimal(s) conversion applied by the router:
parses a decimal literal, none when the literal is malformed (where Python
raises). -/
def parseDecimal (s : String) : Option Rat :=
  match strSplit '.' s with
  | [a] => (toIntM a).map (fun n => (n : Rat))
  | [a, b] =>
    match toIntM a, parseNatL b.data with
    | some i, some f =>
      let neg : Bool := match a.data with | '-' :: _ => true | _ => false
      some ((i : Rat) + (if neg then -1 else 1) * (f : Rat) / ((10 : Rat) ^ b.length))
    | _, _ => none
  | _ => none

----------------------------------------------------------------------------
-- External currency ledger (consumed, not implemented, by this repository)
----------------------------------------------------------------------------

/-- State of the external fungible ledger the mailbox charges fees in. -/
structure CurrencyState where
  balances : String → Rat
  allowances : String → String → Rat

/-- Modelled from the spec: the external TokenLedger's allowance-based
transfer consumed by the mailbox (currency.transfer_from is not part of
this repository).  Per spec section 6 it debits mainAccount's
allowance-to-caller and balance, credits the recipient, and fails on
insufficient balance or allowance. -/
def Currency.transfer_from (s : CurrencyState) (amount : Rat)
    (recipient mainAccount caller : String) : Except String CurrencyState :=
  if s.allowances mainAccount caller < amount then
    Except.error "Not enough coins approved to send!"
  else if s.balances mainAccount < amount then
    Except.error "Not enough coins to send!"
  else
    let al := upd2 s.allowances mainAccount caller (s.allowances mainAccount caller - amount)
    let b1 := upd s.balances mainAccount (s.balances mainAccount - amount)
    let b2 := upd b1 recipient (b1 recipient + amount)
    Except.ok { balances := b2, allowances := al }

----------------------------------------------------------------------------
-- Mailbox (mailbox.py)
----------------------------------------------------------------------------

/-- Delivery record stored in the deliveries hash; the hash default value is
processor none and blockNumber 0. -/
structure Delivery where
  processor : Option String
  blockNumber : Int

/-- Mailbox contract storage.  latestDispatchedId is seeded with the integer
0 in Python and afterwards only ever holds message-id strings; it is
modelled as an Option that is none until the first dispatch. -/
structure MailboxState where
  localDomain : Int
  nonce : Nat
  latestDispatchedId : Option String
  defaultIsm : String
  defaultHook : String
  requiredHook : String
  owner : String
  deliveries : String → Delivery
  dispatchFee : Rat

/-- Models the mailbox constructor seed; ctx.caller becomes the owner. -/
def Mailbox.seed (caller : String) : MailboxState :=
  { localDomain := 517164068468
    nonce := 0
    latestDispatchedId := none
    defaultIsm := "defaultIsm"
    defaultHook := "defaultHook"
    requiredHook := "requiredHook"
    owner := caller
    deliveries := fun _ => { processor := none, blockNumber := 0 }
    dispatchFee := 0 }

/-- Models build_message: the message record assembled by dispatch; the
nonce is read from storage and the version is the VERSION constant. -/
def build_message (s : MailboxState) (origin_domain : Int) (sender : String)
    (destination_domain : Int) (recipient : String) (body : String) : Message :=
  { version := VERSION
    nonce := s.nonce
    originDomain := origin_domain
    sender := sender
    destinationDomain := destination_domain
    recipient := recipient
    body := body }

/-- Models setDefaultIsm (owner only). -/
def Mailbox.setDefaultIsm (s : MailboxState) (caller module : String) :
    Except String MailboxState :=
  if caller = s.owner then Except.ok { s with defaultIsm := module }
  else Except.error "Only the contract owner can call this method."

/-- Models setDefaultHook (owner only). -/
def Mailbox.setDefaultHook (s : MailboxState) (caller hook : String) :
    Except String MailboxState :=
  if caller = s.owner then Except.ok { s with defaultHook := hook }
  else Except.error "Only the contract owner can call this method."

/-- Models setRequiredHook (owner only). -/
def Mailbox.setRequiredHook (s : MailboxState) (caller hook : String) :
    Except String MailboxState :=
  if caller = s.owner then Except.ok { s with requiredHook := hook }
  else Except.error "Only the contract owner can call this method."

/-- Models setDispatchFee (owner only). -/
def Mailbox.setDispatchFee (s : MailboxState) (caller : String) (amount : Rat) :
    Except String MailboxState :=
  if caller = s.owner then Except.ok { s with dispatchFee := amount }
  else Except.error "Only the contract owner can call this method."

/-- Models getDispatchFee. -/
def Mailbox.getDispatchFee (s : MailboxState) : Rat := s.dispatchFee

/-- Models Mailbox.dispatch.  self is ctx.this, the identity the mailbox
contract presents as ctx.caller when it calls currency.transfer_from;
caller is ctx.caller of the dispatch call.  Returns the new mailbox state,
the new currency state and the message id. -/
def Mailbox.dispatch (hash : String → String) (s : MailboxState)
    (cur : CurrencyState) (self caller : String) (destination_domain : Int)
    (recipient_address message_body : String) :
    Except String (MailboxState × CurrencyState × String) := do
  let cur2 ←
    if s.dispatchFee > 0 then
      Currency.transfer_from cur s.dispatchFee s.owner caller self
    else Except.ok cur
  let origin := s.localDomain
  let current_nonce := s.nonce
  let message := build_message s origin caller destination_domain recipient_address message_body
  let msg_id := generate_message_id hash message
  Except.ok ({ s with nonce := current_nonce + 1, latestDispatchedId := some msg_id },
    cur2, msg_id)

/-- Models Mailbox.process; blockNum is the execution height block_num and
caller is ctx.caller.  The metadata argument is accepted and ignored, as in
the source. -/
def Mailbox.process (s : MailboxState) (caller : String) (blockNum : Int)
    (metadata message_id : String) : Except String MailboxState :=
  let delivered_info := s.deliveries message_id
  if delivered_info.blockNumber > 0 then Except.error "Mailbox: already delivered"
  else
    Except.ok { s with
      deliveries := upd s.deliveries message_id
        { processor := some caller, blockNumber := blockNum } }

/-- Models delivered. -/
def Mailbox.delivered (s : MailboxState) (message_id : String) : Bool :=
  decide ((s.deliveries message_id).blockNumber > 0)

/-- Models processor. -/
def Mailbox.processorOf (s : MailboxState) (message_id : String) : Option String :=
  (s.deliveries message_id).processor

/-- Models processedAt. -/
def Mailbox.processedAt (s : MailboxState) (message_id : String) : Int :=
  (s.deliveries message_id).blockNumber

----------------------------------------------------------------------------
-- InterchainToken (interchaintoken.py)
----------------------------------------------------------------------------

/-- InterchainToken contract storage.  The Python balances hash stores both
single-key balances and (owner, spender) allowances; these never collide
and are modelled as two tables. -/
structure TokenState where
  balances : String → Rat
  allowances : String → String → Rat
  owner : String
  localDomain : Int
  routerName : String
  mailbox : String
  interchainRouter : String

/-- Models the token constructor seed. -/
def Token.seed (caller : String) (domain : Int)
    (router mailbox_contract interchain_router_contract : String) : TokenState :=
  { balances := fun _ => 0
    allowances := fun _ _ => 0
    owner := caller
    localDomain := domain
    routerName := router
    mailbox := mailbox_contract
    interchainRouter := interchain_router_contract }

/-- Models balanceOf. -/
def Token.balanceOf (s : TokenState) (account : String) : Rat := s.balances account

/-- Models allowance. -/
def Token.allowance (s : TokenState) (owner spender : String) : Rat :=
  s.allowances owner spender

/-- Models transfer. -/
def Token.transfer (s : TokenState) (caller : String) (amount : Rat) (recipient : String) :
    Except String TokenState :=
  if amount > 0 then
    if s.balances caller ≥ amount then
      let b1 := upd s.balances caller (s.balances caller - amount)
      let b2 := upd b1 recipient (b1 recipient + amount)
      Except.ok { s with balances := b2 }
    else Except.error "Not enough coins to send!"
  else Except.error "Cannot send negative balances!"

/-- Models approve; returns the updated state and the value the call
returns, the accumulated allowance. -/
def Token.approve (s : TokenState) (caller : String) (amount : Rat) (spender : String) :
    Except String (TokenState × Rat) :=
  if amount > 0 then
    let al := upd2 s.allowances caller spender (s.allowances caller spender + amount)
    Except.ok ({ s with allowances := al }, al caller spender)
  else Except.error "Cannot send negative balances!"

/-- Models transfer_from. -/
def Token.transfer_from (s : TokenState) (caller : String) (amount : Rat)
    (recipient main_account : String) : Except String TokenState :=
  if amount > 0 then
    if s.allowances main_account caller ≥ amount then
      if s.balances main_account ≥ amount then
        let al := upd2 s.allowances main_account caller
          (s.allowances main_account caller - amount)
        let b1 := upd s.balances main_account (s.balances main_account - amount)
        let b2 := upd b1 recipient (b1 recipient + amount)
        Except.ok { s with balances := b2, allowances := al }
      else Except.error "Not enough coins to send!"
    else Except.error "Not enough coins approved to send!"
  else Except.error "Cannot send negative balances!"

/-- Models mint (router only; no check on the amount). -/
def Token.mint (s : TokenState) (caller recipient : String) (amount : Rat) :
    Except String TokenState :=
  if caller = s.routerName then
    Except.ok { s with balances := upd s.balances recipient (s.balances recipient + amount) }
  else Except.error "Only the configured router can call this function."

/-- Models burn: debits the caller and credits the reserved BRIDGE_BURNED
pseudo-account; the only guard is the balance comparison. -/
def Token.burn (s : TokenState) (caller : String) (amount : Rat) :
    Except String TokenState :=
  if s.balances caller < amount then Except.error "Insufficient balance to burn."
  else
    let b1 := upd s.balances caller (s.balances caller - amount)
    let b2 := upd b1 "BRIDGE_BURNED" (b1 "BRIDGE_BURNED" + amount)
    Except.ok { s with balances := b2 }

/-- Models handleRemoteMint (router only). -/
def Token.handleRemoteMint (s : TokenState) (caller sender recipient : String)
    (amount : Rat) : Except String TokenState :=
  if caller = s.routerName then
    Except.ok { s with balances := upd s.balances recipient (s.balances recipient + amount) }
  else Except.error "Only the configured router can call this function."

/-- Models xTransfer: burns locally, then dispatches the bridging payload
through the mailbox the token is configured with.  self is the token
contract's own name (the ctx.caller the mailbox sees); mb and cur are the
states of the configured mailbox contract and of the currency ledger it
charges fees in. -/
def Token.xTransfer (hash : String → String) (s : TokenState) (mb : MailboxState)
    (cur : CurrencyState) (self caller : String) (destination_domain : Int)
    (recipient : String) (amount : Rat) :
    Except String (TokenState × MailboxState × CurrencyState × String) := do
  let s2 ← Token.burn s caller amount
  let message_body :=
    caller ++ "|" ++ recipient ++ "|" ++ decimalStr amount ++ "|" ++ intStr s2.localDomain
  let (mb2, cur2, msg_id) ←
    Mailbox.dispatch hash mb cur s2.mailbox self destination_domain
      s2.interchainRouter message_body
  Except.ok (s2, mb2, cur2, msg_id)

----------------------------------------------------------------------------
-- InterchainTokenRouter (interchaintokenrouter.py)
----------------------------------------------------------------------------

/-- Router contract storage. -/
structure RouterState where
  tokensByDomain : Int → String
  localDomain : Int
  owner : String
  mailbox_contract : String

/-- Models the router constructor seed. -/
def Router.seed (caller : String) (domain : Int) (mailbox_contract_name : String) :
    RouterState :=
  { tokensByDomain := fun _ => ""
    localDomain := domain
    owner := caller
    mailbox_contract := mailbox_contract_name }

/-- Models setTokenForDomain (owner only). -/
def Router.setTokenForDomain (s : RouterState) (caller : String) (domain_id : Int)
    (token_name : String) : Except String RouterState :=
  if caller = s.owner then
    Except.ok { s with tokensByDomain := updI s.tokensByDomain domain_id token_name }
  else Except.error "Only the contract owner can call this method."

/-- Models getTokenForDomain. -/
def Router.getTokenForDomain (s : RouterState) (domain_id : Int) : String :=
  s.tokensByDomain domain_id

/-- Models Router.process.  self is the router contract's own name (the
ctx.caller that the mailbox and the token see); mb is the state of the
configured mailbox and tokens maps token contract names to their states
(importlib.import_module, none when no such contract exists).  Marks the
message delivered first, then parses the four pipe-delimited fields, then
mints via the token registered for the router's local domain. -/
def Router.process (r : RouterState) (mb : MailboxState)
    (tokens : String → Option TokenState) (self : String) (blockNum : Int)
    (message_body message_id : String) :
    Except String (MailboxState × (String → Option TokenState)) := do
  let mb2 ← Mailbox.process mb self blockNum message_body message_id
  match strSplit '|' message_body with
  | [sender, recipient, amount_str, origin_domain_str] =>
    match parseDecimal amount_str with
    | none => Except.error "decimal: invalid literal"
    | some amount =>
      match toIntM origin_domain_str with
      | none => Except.error "int: invalid literal"
      | some _origin_domain =>
        let local_token_name := r.tokensByDomain r.localDomain
        if local_token_name = "" then
          Except.error "No InterchainToken configured for this domain."
        else
          match tokens local_token_name with
          | none => Except.error "importlib: module not found"
          | some tk => do
            let tk2 ← Token.handleRemoteMint tk self sender recipient amount
            Except.ok (mb2, upd tokens local_token_name (some tk2))
  | _ => Except.error "Invalid message format."


----------------------------------------------------------------------------
-- Reachability relations and auxiliary predicates
----------------------------------------------------------------------------

/-- Returns true exactly when a call committed (no exception was raised). -/
def isOkB {α : Type} : Except String α → Bool
  | Except.ok _ => true
  | Except.error _ => false

/-- Combined mailbox-and-currency configuration, the state a mailbox
transition acts on. -/
abbrev MailboxWorld := MailboxState × CurrencyState

/-- One successful state-mutating call that can touch mailbox storage:
any owner setter, dispatch, process, or one of the two token-bridge entry
points that call into the mailbox. -/
inductive MailboxStep : MailboxWorld → MailboxWorld → Prop
  | setIsm (s : MailboxState) (cur : CurrencyState) (c m : String) (s2 : MailboxState) :
      Mailbox.setDefaultIsm s c m = Except.ok s2 → MailboxStep (s, cur) (s2, cur)
  | setHook (s : MailboxState) (cur : CurrencyState) (c h : String) (s2 : MailboxState) :
      Mailbox.setDefaultHook s c h = Except.ok s2 → MailboxStep (s, cur) (s2, cur)
  | setReq (s : MailboxState) (cur : CurrencyState) (c h : String) (s2 : MailboxState) :
      Mailbox.setRequiredHook s c h = Except.ok s2 → MailboxStep (s, cur) (s2, cur)
  | setFee (s : MailboxState) (cur : CurrencyState) (c : String) (a : Rat)
      (s2 : MailboxState) :
      Mailbox.setDispatchFee s c a = Except.ok s2 → MailboxStep (s, cur) (s2, cur)
  | dispatchStep (hash : String → String) (s : MailboxState) (cur : CurrencyState)
      (self c : String) (d : Int) (ra b mid : String) (s2 : MailboxState)
      (cur2 : CurrencyState) :
      Mailbox.dispatch hash s cur self c d ra b = Except.ok (s2, cur2, mid) →
      MailboxStep (s, cur) (s2, cur2)
  | processStep (s : MailboxState) (cur : CurrencyState) (c : String) (bn : Int)
      (md mid : String) (s2 : MailboxState) :
      Mailbox.process s c bn md mid = Except.ok s2 → MailboxStep (s, cur) (s2, cur)
  | routerStep (r : RouterState) (s : MailboxState) (cur : CurrencyState)
      (tokens : String → Option TokenState) (self : String) (bn : Int)
      (body mid : String) (s2 : MailboxState) (tokens2 : String → Option TokenState) :
      Router.process r s tokens self bn body mid = Except.ok (s2, tokens2) →
      MailboxStep (s, cur) (s2, cur)
  | xferStep (hash : String → String) (tk : TokenState) (s : MailboxState)
      (cur : CurrencyState) (self c : String) (d : Int) (rcp : String) (a : Rat)
      (tk2 : TokenState) (s2 : MailboxState) (cur2 : CurrencyState) (mid : String) :
      Token.xTransfer hash tk s cur self c d rcp a = Except.ok (tk2, s2, cur2, mid) →
      MailboxStep (s, cur) (s2, cur2)

/-- Zero or more mailbox steps. -/
inductive MailboxReach : MailboxWorld → MailboxWorld → Prop
  | refl (p : MailboxWorld) : MailboxReach p p
  | tail (p q w : MailboxWorld) : MailboxReach p q → MailboxStep q w → MailboxReach p w

/-- Every account balance of the token is non-negative. -/
def TokenNonNeg (s : TokenState) : Prop := ∀ a, 0 ≤ s.balances a

/-- One successful token operation whose amount is positive (the amended
form of the balance invariant restricts attention to these). -/
inductive TokenStep : TokenState → TokenState → Prop
  | transferStep (s : TokenState) (c : String) (a : Rat) (rcp : String) (t2 : TokenState) :
      Token.transfer s c a rcp = Except.ok t2 → TokenStep s t2
  | approveStep (s : TokenState) (c : String) (a : Rat) (sp : String) (t2 : TokenState)
      (ret : Rat) :
      Token.approve s c a sp = Except.ok (t2, ret) → TokenStep s t2
  | transferFromStep (s : TokenState) (c : String) (a : Rat) (rcp main : String)
      (t2 : TokenState) :
      Token.transfer_from s c a rcp main = Except.ok t2 → TokenStep s t2
  | mintStep (s : TokenState) (c rcp : String) (a : Rat) (t2 : TokenState) :
      0 < a → Token.mint s c rcp a = Except.ok t2 → TokenStep s t2
  | burnStep (s : TokenState) (c : String) (a : Rat) (t2 : TokenState) :
      0 < a → Token.burn s c a = Except.ok t2 → TokenStep s t2
  | handleStep (s : TokenState) (c snd rcp : String) (a : Rat) (t2 : TokenState) :
      0 < a → Token.handleRemoteMint s c snd rcp a = Except.ok t2 → TokenStep s t2
  | xferStep (hash : String → String) (s : TokenState) (mb : MailboxState)
      (cur : CurrencyState) (self c : String) (d : Int) (rcp : String) (a : Rat)
      (t2 : TokenState) (mb2 : MailboxState) (cur2 : CurrencyState) (mid : String) :
      0 < a → Token.xTransfer hash s mb cur self c d rcp a = Except.ok (t2, mb2, cur2, mid) →
      TokenStep s t2

/-- Zero or more token steps. -/
inductive TokenReach : TokenState → TokenState → Prop
  | refl (s : TokenState) : TokenReach s s
  | tail (s t w : TokenState) : TokenReach s t → TokenStep t w → TokenReach s w

----------------------------------------------------------------------------
-- Concrete example states, used to instantiate the theorems
----------------------------------------------------------------------------

/-- Freshly seeded mailbox owned by sys. -/
def mbEx : MailboxState := Mailbox.seed "sys"

/-- Freshly seeded token on domain 1, as in the repository tests. -/
def tokEx : TokenState :=
  Token.seed "sys" 1 "router1" "con_mailbox" "con_interchain_router"

/-- Token state holding 500 for user1. -/
def tokEx500 : TokenState :=
  { tokEx with balances := fun a => if a = "user1" then 500 else 0 }

/-- Currency ledger where user1 holds 1000 and has approved 50 to the
mailbox contract. -/
def curEx : CurrencyState :=
  { balances := fun a => if a = "user1" then 1000 else 0
    allowances := fun a b => if a = "user1" ∧ b = "con_mailbox" then 50 else 0 }

/-- Empty currency ledger. -/
def curEx0 : CurrencyState := { balances := fun _ => 0, allowances := fun _ _ => 0 }

/-- Mailbox whose owner has set a dispatch fee of 50. -/
def mbExFee : MailboxState := { mbEx with dispatchFee := 50 }

/-- Example message. -/
def msgEx1 : Message :=
  { version := 1, nonce := 0, originDomain := 1, sender := "user1",
    destinationDomain := 2, recipient := "router", body := "hello" }

/-- Same fields as msgEx1 except for the nonce. -/
def msgEx2 : Message := { msgEx1 with nonce := 1 }

/-- Router on the Xian domain with the test token registered for it. -/
def rEx : RouterState :=
  { tokensByDomain := updI (fun _ => "") 517164068468 "con_interchain_token"
    localDomain := 517164068468
    owner := "sys"
    mailbox_contract := "con_mailbox" }

/-- Token deployed as con_interchain_token that trusts con_interchain_router. -/
def tokExR : TokenState :=
  { tokEx with routerName := "con_interchain_router" }

/-- Contract-name resolution table for the router examples. -/
def tokensEx : String → Option TokenState :=
  fun n => if n = "con_interchain_token" then some tokExR else none

/-- Currency ledger with an approval of 50 to the mailbox but no balance. -/
def curExA : CurrencyState :=
  { balances := fun _ => 0
    allowances := fun a b => if a = "user1" ∧ b = "con_mailbox" then 50 else 0 }

/-- Router with no token registered for any domain. -/
def rExEmpty : RouterState := Router.seed "sys" 517164068468 "con_mailbox"

/-- Token state where user1 has approved 10 to spender (and holds nothing). -/
def tokExAl : TokenState :=
  { tokEx with allowances := fun a b => if a = "user1" ∧ b = "spender" then 10 else 0 }

/-- Mailbox after one successful process call for m1 by user2 at height 5. -/
def mbC1 : MailboxState :=
  { mbEx with deliveries := upd mbEx.deliveries "m1" ⟨some "user2", 5⟩ }

----------------------------------------------------------------------------
-- Supporting lemmas
----------------------------------------------------------------------------

lemma decodeDigits_append (l : List Char) (c : Char) :
    decodeDigits (l ++ [c]) = 10 * decodeDigits l + (c.toNat - 48) := by
  simp [decodeDigits, List.foldl_append]

lemma digitChar_toNat {d : Nat} (h : d < 10) : (digitChar d).toNat = 48 + d := by
  interval_cases d <;> rfl

lemma decode_natDigits : ∀ fuel n, n < fuel → decodeDigits (natDigits fuel n) = n := by
  intro fuel
  induction fuel with
  | zero => intro n h; omega
  | succ f ih =>
    intro n h
    by_cases h0 : n = 0
    · subst h0; simp [natDigits, decodeDigits]
    · have hdiv : n / 10 < f := by
        have h1 : n / 10 < n := Nat.div_lt_self (Nat.pos_of_ne_zero h0) (by norm_num)
        omega
      have hmod : n % 10 < 10 := Nat.mod_lt n (by norm_num)
      simp only [natDigits, h0, if_false]
      rw [decodeDigits_append, ih _ hdiv, digitChar_toNat hmod]
      omega

lemma decode_natStr (n : Nat) : decodeDigits (natStr n).data = n := by
  by_cases h0 : n = 0
  · subst h0; decide
  · simp only [natStr, h0, if_false]
    exact decode_natDigits (n + 1) n (by omega)

lemma natStr_injective : Function.Injective natStr := by
  intro m n h
  have hm := decode_natStr m
  have hn := decode_natStr n
  rw [h] at hm
  omega

lemma dash_not_mem_natDigits : ∀ fuel n, ('-' : Char) ∉ natDigits fuel n := by
  intro fuel
  induction fuel with
  | zero => intro n; simp [natDigits]
  | succ f ih =>
    intro n
    by_cases h0 : n = 0
    · simp [natDigits, h0]
    · simp only [natDigits, h0, if_false, List.mem_append, List.mem_singleton]
      rintro (hmem | heq)
      · exact ih _ hmem
      · have hmod : n % 10 < 10 := Nat.mod_lt n (by norm_num)
        have hchar := digitChar_toNat hmod
        rw [← heq] at hchar
        have h45 : (('-' : Char)).toNat = 45 := rfl
        rw [h45] at hchar
        omega

lemma dash_not_mem_natStr (n : Nat) : ('-' : Char) ∉ (natStr n).data := by
  by_cases h0 : n = 0
  · subst h0; decide
  · simp only [natStr, h0, if_false]
    exact dash_not_mem_natDigits (n + 1) n

/-- Splitting a character list at its first dash is unambiguous. -/
lemma append_dash_inj :
    ∀ (a b x y : List Char), ('-' : Char) ∉ a → ('-' : Char) ∉ b →
      a ++ '-' :: x = b ++ '-' :: y → a = b ∧ x = y := by
  intro a
  induction a with
  | nil =>
    intro b x y _ hb h
    cases b with
    | nil => simpa using h
    | cons d ds =>
      simp only [List.nil_append, List.cons_append, List.cons.injEq] at h
      obtain ⟨h1, _⟩ := h
      subst h1
      exact absurd (List.mem_cons_self _ _) hb
  | cons c cs ih =>
    intro b x y ha hb h
    cases b with
    | nil =>
      simp only [List.nil_append, List.cons_append, List.cons.injEq] at h
      obtain ⟨h1, _⟩ := h
      subst h1
      exact absurd (List.mem_cons_self _ _) ha
    | cons d ds =>
      simp only [List.cons_append, List.cons.injEq] at h
      obtain ⟨hcd, htail⟩ := h
      have ha' : ('-' : Char) ∉ cs := fun hm => ha (List.mem_cons_of_mem _ hm)
      have hb' : ('-' : Char) ∉ ds := fun hm => hb (List.mem_cons_of_mem _ hm)
      obtain ⟨h1, h2⟩ := ih ds x y ha' hb' htail
      exact ⟨by rw [hcd, h1], h2⟩


/-- Two canonical strings with different nonces are different strings:
version and nonce are recovered by splitting at the first two dashes. -/
lemma messageStr_nonce_inj {m1 m2 : Message} (h : messageStr m1 = messageStr m2) :
    m1.nonce = m2.nonce := by
  have hd : (messageStr m1).data = (messageStr m2).data := by rw [h]
  simp only [messageStr, String.data_append] at hd
  simp only [List.append_assoc, List.singleton_append] at hd
  obtain ⟨_, h2⟩ :=
    append_dash_inj _ _ _ _ (dash_not_mem_natStr m1.version) (dash_not_mem_natStr m2.version) hd
  obtain ⟨h3, _⟩ :=
    append_dash_inj _ _ _ _ (dash_not_mem_natStr m1.nonce) (dash_not_mem_natStr m2.nonce) h2
  have : natStr m1.nonce = natStr m2.nonce := congrArg String.mk h3
  exact natStr_injective this


lemma upd_same {α : Type} (f : String → α) (k : String) (v : α) : upd f k v k = v := by
  simp [upd]

lemma upd_ne {α : Type} (f : String → α) (k : String) (v : α) {x : String} (h : x ≠ k) :
    upd f k v x = f x := by
  simp [upd, h]

lemma upd2_same {α : Type} (f : String → String → α) (k1 k2 : String) (v : α) :
    upd2 f k1 k2 v k1 k2 = v := by
  simp [upd2]

lemma upd_nonneg {f : String → Rat} (hf : ∀ x, 0 ≤ f x) {k : String} {v : Rat}
    (hv : 0 ≤ v) : ∀ x, 0 ≤ upd f k v x := by
  intro x
  unfold upd
  split
  · exact hv
  · exact hf x

/-- Elimination form of a successful Mailbox.process call. -/
lemma process_ok_elim {s : MailboxState} {c : String} {bn : Int} {md mid : String}
    {s2 : MailboxState} (h : Mailbox.process s c bn md mid = Except.ok s2) :
    ¬ (s.deliveries mid).blockNumber > 0 ∧
      s2 = { s with deliveries := upd s.deliveries mid ⟨some c, bn⟩ } := by
  simp only [Mailbox.process] at h
  split at h
  · cases h
  · exact ⟨by assumption, (Except.ok.inj h).symm⟩

/-- Elimination form of a successful Mailbox.dispatch call: the mailbox
state advances the nonce and records the new id, and nothing else. -/
lemma dispatch_ok_elim {hash : String → String} {s : MailboxState} {cur : CurrencyState}
    {self c : String} {d : Int} {ra b mid : String} {s2 : MailboxState}
    {cur2 : CurrencyState}
    (h : Mailbox.dispatch hash s cur self c d ra b = Except.ok (s2, cur2, mid)) :
    s2 = { s with nonce := s.nonce + 1, latestDispatchedId := some mid } := by
  unfold Mailbox.dispatch at h
  simp only [bind, Except.bind] at h
  split at h
  · cases htf : Currency.transfer_from cur s.dispatchFee s.owner c self with
    | error e =>
      rw [htf] at h
      cases h
    | ok cur3 =>
      rw [htf] at h
      simp only [Except.ok.injEq, Prod.mk.injEq] at h
      obtain ⟨h1, _, h3⟩ := h
      rw [← h3, ← h1]
  · simp only [Except.ok.injEq, Prod.mk.injEq] at h
    obtain ⟨h1, _, h3⟩ := h
    rw [← h3, ← h1]

/-- Elimination form of a successful Token.burn call. -/
lemma burn_ok_elim {s : TokenState} {c : String} {a : Rat} {t2 : TokenState}
    (h : Token.burn s c a = Except.ok t2) :
    ¬ s.balances c < a ∧
      t2 = { s with
             balances :=
               upd (upd s.balances c (s.balances c - a)) "BRIDGE_BURNED"
                 (upd s.balances c (s.balances c - a) "BRIDGE_BURNED" + a) } := by
  unfold Token.burn at h
  split at h
  · cases h
  · exact ⟨by assumption, (Except.ok.inj h).symm⟩

/-- Elimination form of a successful Token.xTransfer call: it is a
successful burn followed by a successful dispatch. -/
lemma xTransfer_ok_elim {hash : String → String} {s : TokenState} {mb : MailboxState}
    {cur : CurrencyState} {self c : String} {d : Int} {rcp : String} {a : Rat}
    {t2 : TokenState} {mb2 : MailboxState} {cur2 : CurrencyState} {mid : String}
    (h : Token.xTransfer hash s mb cur self c d rcp a = Except.ok (t2, mb2, cur2, mid)) :
    Token.burn s c a = Except.ok t2 ∧
      mb2 = { mb with nonce := mb.nonce + 1, latestDispatchedId := some mid } := by
  unfold Token.xTransfer at h
  simp only [bind, Except.bind] at h
  cases hb : Token.burn s c a with
  | error e =>
    rw [hb] at h
    cases h
  | ok tkB =>
    rw [hb] at h
    dsimp only at h
    cases hd : Mailbox.dispatch hash mb cur tkB.mailbox self d tkB.interchainRouter
        (c ++ "|" ++ rcp ++ "|" ++ decimalStr a ++ "|" ++ intStr tkB.localDomain) with
    | error e =>
      rw [hd] at h
      cases h
    | ok trip =>
      obtain ⟨mbX, curX, midX⟩ := trip
      rw [hd] at h
      dsimp only at h
      simp only [Except.ok.injEq, Prod.mk.injEq] at h
      obtain ⟨h1, h2, h3, h4⟩ := h
      subst h1; subst h2; subst h3; subst h4
      exact ⟨rfl, dispatch_ok_elim hd⟩

/-- Elimination form of a successful Router.process call: the mailbox
component is exactly the result of the inner Mailbox.process call. -/
lemma router_process_ok_mailbox {r : RouterState} {mb : MailboxState}
    {tokens : String → Option TokenState} {self : String} {bn : Int}
    {body mid : String} {mb2 : MailboxState} {tokens2 : String → Option TokenState}
    (h : Router.process r mb tokens self bn body mid = Except.ok (mb2, tokens2)) :
    Mailbox.process mb self bn body mid = Except.ok mb2 := by
  unfold Router.process at h
  simp only [bind, Except.bind] at h
  cases hmp : Mailbox.process mb self bn body mid with
  | error e =>
    rw [hmp] at h
    cases h
  | ok mbX =>
    rw [hmp] at h
    dsimp only at h
    split at h
    · split at h
      · cases h
      · split at h
        · cases h
        · split at h
          · cases h
          · split at h
            · cases h
            · split at h
              · cases h
              · simp only [Except.ok.injEq, Prod.mk.injEq] at h
                rw [h.1]
    · cases h

/-- Characterization of a fully successful Router.process call. -/
lemma router_process_success {r : RouterState} {mb : MailboxState}
    {tokens : String → Option TokenState} {self : String} {bn : Int}
    {body mid snd rcp amt dd : String} {q : Rat} {i : Int} {tk : TokenState}
    (hsp : strSplit '|' body = [snd, rcp, amt, dd])
    (hq : parseDecimal amt = some q)
    (hi : toIntM dd = some i)
    (hfresh : ¬ (mb.deliveries mid).blockNumber > 0)
    (hreg : r.tokensByDomain r.localDomain ≠ "")
    (htk : tokens (r.tokensByDomain r.localDomain) = some tk)
    (hauth : self = tk.routerName) :
    Router.process r mb tokens self bn body mid =
      Except.ok ({ mb with deliveries := upd mb.deliveries mid ⟨some self, bn⟩ },
        upd tokens (r.tokensByDomain r.localDomain)
          (some { tk with balances := upd tk.balances rcp (tk.balances rcp + q) })) := by
  unfold Router.process
  simp only [bind, Except.bind, Mailbox.process, if_neg hfresh]
  rw [hsp]
  dsimp only
  rw [hq, hi]
  dsimp only
  rw [if_neg hreg, htk]
  dsimp only
  simp only [Token.handleRemoteMint, if_pos hauth]

/-- Burning a positive amount preserves non-negativity of all balances. -/
lemma burn_nonneg {s : TokenState} {c : String} {a : Rat} {t2 : TokenState}
    (ha : 0 < a) (h : Token.burn s c a = Except.ok t2) (hnn : TokenNonNeg s) :
    TokenNonNeg t2 := by
  obtain ⟨hge, ht⟩ := burn_ok_elim h
  subst ht
  intro x
  dsimp only
  have hb1 : ∀ y, 0 ≤ upd s.balances c (s.balances c - a) y :=
    upd_nonneg hnn (by have := not_lt.mp hge; linarith)
  exact upd_nonneg hb1 (by have := hb1 "BRIDGE_BURNED"; linarith) x

/-- One positive-amount token step preserves non-negativity of balances. -/
lemma tokenStep_nonneg {s t : TokenState} (hnn : TokenNonNeg s) (hstep : TokenStep s t) :
    TokenNonNeg t := by
  cases hstep with
  | transferStep s c a rcp t2 h =>
    unfold Token.transfer at h
    by_cases ha : a > 0
    · rw [if_pos ha] at h
      by_cases hge : s.balances c ≥ a
      · rw [if_pos hge] at h
        rw [← Except.ok.inj h]
        intro x
        dsimp only
        have hb1 : ∀ y, 0 ≤ upd s.balances c (s.balances c - a) y :=
          upd_nonneg hnn (by linarith)
        exact upd_nonneg hb1 (by have := hb1 rcp; linarith) x
      · rw [if_neg hge] at h; cases h
    · rw [if_neg ha] at h; cases h
  | approveStep s c a sp t2 ret h =>
    unfold Token.approve at h
    by_cases ha : a > 0
    · rw [if_pos ha] at h
      rw [← (Prod.mk.injEq .. |>.mp (Except.ok.inj h)).1]
      exact hnn
    · rw [if_neg ha] at h; cases h
  | transferFromStep s c a rcp main t2 h =>
    unfold Token.transfer_from at h
    by_cases ha : a > 0
    · rw [if_pos ha] at h
      by_cases hal : s.allowances main c ≥ a
      · rw [if_pos hal] at h
        by_cases hge : s.balances main ≥ a
        · rw [if_pos hge] at h
          rw [← Except.ok.inj h]
          intro x
          dsimp only
          have hb1 : ∀ y, 0 ≤ upd s.balances main (s.balances main - a) y :=
            upd_nonneg hnn (by linarith)
          exact upd_nonneg hb1 (by have := hb1 rcp; linarith) x
        · rw [if_neg hge] at h; cases h
      · rw [if_neg hal] at h; cases h
    · rw [if_neg ha] at h; cases h
  | mintStep s c rcp a t2 ha h =>
    unfold Token.mint at h
    by_cases hc : c = s.routerName
    · rw [if_pos hc] at h
      rw [← Except.ok.inj h]
      intro x
      dsimp only
      exact upd_nonneg hnn (by have := hnn rcp; linarith) x
    · rw [if_neg hc] at h; cases h
  | burnStep s c a t2 ha h => exact burn_nonneg ha h hnn
  | handleStep s c snd rcp a t2 ha h =>
    unfold Token.handleRemoteMint at h
    by_cases hc : c = s.routerName
    · rw [if_pos hc] at h
      rw [← Except.ok.inj h]
      intro x
      dsimp only
      exact upd_nonneg hnn (by have := hnn rcp; linarith) x
    · rw [if_neg hc] at h; cases h
  | xferStep hash s mb cur self c d rcp a t2 mb2 cur2 mid ha h =>
    exact burn_nonneg ha (xTransfer_ok_elim h).1 hnn

/-- Non-negativity of balances is preserved along any positive-amount
reachability chain. -/
lemma tokenReach_nonneg {s t : TokenState} (hnn : TokenNonNeg s)
    (hreach : TokenReach s t) : TokenNonNeg t := by
  induction hreach with
  | refl => exact hnn
  | tail q w hsq hstep ih => exact tokenStep_nonneg ih hstep

/-- One mailbox step never touches the delivery record of an already
delivered identifier. -/
lemma mailboxStep_preserves_delivery {m : String} {s t : MailboxState}
    {cur tcur : CurrencyState} (hpos : (s.deliveries m).blockNumber > 0)
    (hstep : MailboxStep (s, cur) (t, tcur)) : t.deliveries m = s.deliveries m := by
  cases hstep with
  | setIsm s cur c v s2 h =>
    unfold Mailbox.setDefaultIsm at h
    split at h
    · rw [← Except.ok.inj h]
    · cases h
  | setHook s cur c v s2 h =>
    unfold Mailbox.setDefaultHook at h
    split at h
    · rw [← Except.ok.inj h]
    · cases h
  | setReq s cur c v s2 h =>
    unfold Mailbox.setRequiredHook at h
    split at h
    · rw [← Except.ok.inj h]
    · cases h
  | setFee s cur c a s2 h =>
    unfold Mailbox.setDispatchFee at h
    split at h
    · rw [← Except.ok.inj h]
    · cases h
  | dispatchStep hash s cur self c d ra b mid s2 cur2 h =>
    rw [dispatch_ok_elim h]
  | processStep s cur c bn md mid s2 h =>
    obtain ⟨hnot, ht⟩ := process_ok_elim h
    subst ht
    have hne : m ≠ mid := by
      intro he
      rw [he] at hpos
      exact hnot hpos
    exact upd_ne _ _ _ hne
  | routerStep r s cur tokens self bn body mid s2 tokens2 h =>
    obtain ⟨hnot, ht⟩ := process_ok_elim (router_process_ok_mailbox h)
    subst ht
    have hne : m ≠ mid := by
      intro he
      rw [he] at hpos
      exact hnot hpos
    exact upd_ne _ _ _ hne
  | xferStep hash tk s cur self c d rcp a tk2 s2 cur2 mid h =>
    rw [(xTransfer_ok_elim h).2]

/-- The delivery record of an already delivered identifier survives any
sequence of mailbox steps unchanged. -/
lemma mailboxReach_preserves_delivery {m : String} {p q : MailboxWorld}
    (hpos : (p.1.deliveries m).blockNumber > 0) (hreach : MailboxReach p q) :
    q.1.deliveries m = p.1.deliveries m := by
  induction hreach with
  | refl => rfl
  | tail q w hpq hstep ih =>
    obtain ⟨qs, qc⟩ := q
    obtain ⟨ws, wc⟩ := w
    have hq : (qs.deliveries m).blockNumber > 0 := by
      rw [ih]
      exact hpos
    rw [mailboxStep_preserves_delivery hq hstep, ih]

----------------------------------------------------------------------------
-- Claim theorems
----------------------------------------------------------------------------

/-- C2: the message identifier is a deterministic function of the seven
message fields, and, for a collision-free digest, two messages that agree
on origin, sender, destination, recipient and body but carry different
nonces receive different identifiers. -/
theorem C2_identifier_determinism_nonce_injectivity (hash : String → String) :
    (∀ m1 m2 : Message, m1.version = m2.version → m1.nonce = m2.nonce →
      m1.originDomain = m2.originDomain → m1.sender = m2.sender →
      m1.destinationDomain = m2.destinationDomain → m1.recipient = m2.recipient →
      m1.body = m2.body →
      generate_message_id hash m1 = generate_message_id hash m2) ∧
    (Function.Injective hash →
      ∀ m1 m2 : Message, m1.originDomain = m2.originDomain → m1.sender = m2.sender →
      m1.destinationDomain = m2.destinationDomain → m1.recipient = m2.recipient →
      m1.body = m2.body → m1.nonce ≠ m2.nonce →
      generate_message_id hash m1 ≠ generate_message_id hash m2) := by
  constructor
  · intro m1 m2 h1 h2 h3 h4 h5 h6 h7
    unfold generate_message_id messageStr
    rw [h1, h2, h3, h4, h5, h6, h7]
  · intro hinj m1 m2 _ _ _ _ _ hne heq
    exact hne (messageStr_nonce_inj (hinj heq))

/-- Witness for C2 at concrete messages that differ only in the nonce. -/
theorem C2_witness :
    generate_message_id (fun s => s) msgEx1 = generate_message_id (fun s => s) msgEx1 ∧
    generate_message_id (fun s => s) msgEx1 ≠ generate_message_id (fun s => s) msgEx2 :=
  ⟨(C2_identifier_determinism_nonce_injectivity (fun s => s)).1 msgEx1 msgEx1
      rfl rfl rfl rfl rfl rfl rfl,
    (C2_identifier_determinism_nonce_injectivity (fun s => s)).2
      Function.injective_id msgEx1 msgEx2 rfl rfl rfl rfl rfl (by decide)⟩

/-- C6: every owner-only setter of the mailbox and the router rejects every
non-owner caller with an authorization error, and mint and handleRemoteMint
reject every caller other than the configured router. -/
theorem C6_authorization_enforcement :
    (∀ (s : MailboxState) (c v : String), c ≠ s.owner →
      Mailbox.setDefaultIsm s c v =
        Except.error "Only the contract owner can call this method.") ∧
    (∀ (s : MailboxState) (c v : String), c ≠ s.owner →
      Mailbox.setDefaultHook s c v =
        Except.error "Only the contract owner can call this method.") ∧
    (∀ (s : MailboxState) (c v : String), c ≠ s.owner →
      Mailbox.setRequiredHook s c v =
        Except.error "Only the contract owner can call this method.") ∧
    (∀ (s : MailboxState) (c : String) (a : Rat), c ≠ s.owner →
      Mailbox.setDispatchFee s c a =
        Except.error "Only the contract owner can call this method.") ∧
    (∀ (r : RouterState) (c : String) (d : Int) (n : String), c ≠ r.owner →
      Router.setTokenForDomain r c d n =
        Except.error "Only the contract owner can call this method.") ∧
    (∀ (t : TokenState) (c rcp : String) (a : Rat), c ≠ t.routerName →
      Token.mint t c rcp a =
        Except.error "Only the configured router can call this function.") ∧
    (∀ (t : TokenState) (c snd rcp : String) (a : Rat), c ≠ t.routerName →
      Token.handleRemoteMint t c snd rcp a =
        Except.error "Only the configured router can call this function.") := by
  refine ⟨?_, ?_, ?_, ?_, ?_, ?_, ?_⟩
  · intro s c v h
    simp only [Mailbox.setDefaultIsm, if_neg h]
  · intro s c v h
    simp only [Mailbox.setDefaultHook, if_neg h]
  · intro s c v h
    simp only [Mailbox.setRequiredHook, if_neg h]
  · intro s c a h
    simp only [Mailbox.setDispatchFee, if_neg h]
  · intro r c d n h
    simp only [Router.setTokenForDomain, if_neg h]
  · intro t c rcp a h
    simp only [Token.mint, if_neg h]
  · intro t c snd rcp a h
    simp only [Token.handleRemoteMint, if_neg h]

/-- Witness for C6 with the non-owner, non-router caller user1. -/
theorem C6_witness :
    Mailbox.setDefaultIsm mbEx "user1" "badIsm" =
      Except.error "Only the contract owner can call this method." ∧
    Mailbox.setDefaultHook mbEx "user1" "badHook" =
      Except.error "Only the contract owner can call this method." ∧
    Mailbox.setRequiredHook mbEx "user1" "badHook" =
      Except.error "Only the contract owner can call this method." ∧
    Mailbox.setDispatchFee mbEx "user1" 50 =
      Except.error "Only the contract owner can call this method." ∧
    Router.setTokenForDomain rEx "user1" 1 "tok" =
      Except.error "Only the contract owner can call this method." ∧
    Token.mint tokEx "user1" "user2" 10 =
      Except.error "Only the configured router can call this function." ∧
    Token.handleRemoteMint tokEx "user1" "user2" "user3" 10 =
      Except.error "Only the configured router can call this function." :=
  ⟨C6_authorization_enforcement.1 mbEx "user1" "badIsm" (by decide),
    C6_authorization_enforcement.2.1 mbEx "user1" "badHook" (by decide),
    C6_authorization_enforcement.2.2.1 mbEx "user1" "badHook" (by decide),
    C6_authorization_enforcement.2.2.2.1 mbEx "user1" 50 (by decide),
    C6_authorization_enforcement.2.2.2.2.1 rEx "user1" 1 "tok" (by decide),
    C6_authorization_enforcement.2.2.2.2.2.1 tokEx "user1" "user2" 10 (by decide),
    C6_authorization_enforcement.2.2.2.2.2.2 tokEx "user1" "user2" "user3" 10 (by decide)⟩

/-- C9: approve accumulates the allowance (new allowance is the previous
value plus the amount, and is returned), and rejects non-positive amounts
with no state change. -/
theorem C9_approve_accumulates :
    ∀ (s : TokenState) (c sp : String) (a : Rat),
    (0 < a →
      Token.approve s c a sp =
        Except.ok ({ s with allowances := upd2 s.allowances c sp (s.allowances c sp + a) },
          s.allowances c sp + a)) ∧
    (a ≤ 0 → Token.approve s c a sp = Except.error "Cannot send negative balances!") := by
  intro s c sp a
  constructor
  · intro ha
    simp only [Token.approve, if_pos ha, upd2_same]
  · intro ha
    simp only [Token.approve, if_neg (not_lt.mpr ha)]

/-- Witness for C9: an approval of 5 on top of an existing allowance, and a
rejected approval of -1. -/
theorem C9_witness :
    Token.approve tokEx "user1" 5 "spender" =
      Except.ok ({ tokEx with
          allowances := upd2 tokEx.allowances "user1" "spender"
            (tokEx.allowances "user1" "spender" + 5) },
        tokEx.allowances "user1" "spender" + 5) ∧
    Token.approve tokEx "user1" (-1) "spender" =
      Except.error "Cannot send negative balances!" :=
  ⟨(C9_approve_accumulates tokEx "user1" "spender" 5).1 (by decide),
    (C9_approve_accumulates tokEx "user1" "spender" (-1)).2 (by decide)⟩

/-- C10: Mailbox.process checks nothing but the replay mark: for any
identifier whose record still has blockNumber 0 it succeeds for any caller
and any metadata, records the caller and the current height, and the three
read-only views then report exactly that record. -/
theorem C10_process_performs_no_authenticity_check :
    ∀ (s : MailboxState) (c : String) (bn : Int) (md mid : String),
    (s.deliveries mid).blockNumber = 0 → 0 < bn →
    Mailbox.process s c bn md mid =
      Except.ok { s with deliveries := upd s.deliveries mid ⟨some c, bn⟩ } ∧
    Mailbox.delivered { s with deliveries := upd s.deliveries mid ⟨some c, bn⟩ } mid = true ∧
    Mailbox.processorOf { s with deliveries := upd s.deliveries mid ⟨some c, bn⟩ } mid =
      some c ∧
    Mailbox.processedAt { s with deliveries := upd s.deliveries mid ⟨some c, bn⟩ } mid = bn := by
  intro s c bn md mid h0 hbn
  have hnot : ¬ (s.deliveries mid).blockNumber > 0 := by omega
  refine ⟨?_, ?_, ?_, ?_⟩
  · simp only [Mailbox.process, if_neg hnot]
  · simp only [Mailbox.delivered, upd_same]
    exact decide_eq_true hbn
  · simp only [Mailbox.processorOf, upd_same]
  · simp only [Mailbox.processedAt, upd_same]

/-- Witness for C10: an identifier never produced by any dispatch is
processed on a fresh mailbox by an arbitrary caller. -/
theorem C10_witness :
    Mailbox.process mbEx "user2" 7 "meta" "never-dispatched" =
      Except.ok { mbEx with
        deliveries := upd mbEx.deliveries "never-dispatched" ⟨some "user2", 7⟩ } ∧
    Mailbox.delivered { mbEx with
        deliveries := upd mbEx.deliveries "never-dispatched" ⟨some "user2", 7⟩ }
      "never-dispatched" = true ∧
    Mailbox.processorOf { mbEx with
        deliveries := upd mbEx.deliveries "never-dispatched" ⟨some "user2", 7⟩ }
      "never-dispatched" = some "user2" ∧
    Mailbox.processedAt { mbEx with
        deliveries := upd mbEx.deliveries "never-dispatched" ⟨some "user2", 7⟩ }
      "never-dispatched" = 7 :=
  C10_process_performs_no_authenticity_check mbEx "user2" 7 "meta" "never-dispatched"
    (by decide) (by decide)

/-- C7: a payload whose pipe-delimited field count differs from four makes
Router.process fail with the format error (given a not-yet-delivered
identifier, so that the earlier replay check does not fire first), and with
no token registered for the router's local domain every Router.process
call fails; a failing call commits nothing, so no mint happens. -/
theorem C7_router_rejects_malformed_and_unregistered :
    ∀ (r : RouterState) (mb : MailboxState) (tokens : String → Option TokenState)
      (self : String) (bn : Int) (body mid : String),
    (¬ (mb.deliveries mid).blockNumber > 0 → (strSplit '|' body).length ≠ 4 →
      Router.process r mb tokens self bn body mid =
        Except.error "Invalid message format.") ∧
    (r.tokensByDomain r.localDomain = "" →
      isOkB (Router.process r mb tokens self bn body mid) = false) := by
  intro r mb tokens self bn body mid
  constructor
  · intro hfresh hlen
    unfold Router.process
    simp only [bind, Except.bind, Mailbox.process, if_neg hfresh]
    rcases hl : strSplit '|' body with _ | ⟨p1, _ | ⟨p2, _ | ⟨p3, _ | ⟨p4, _ | ⟨p5, rest⟩⟩⟩⟩⟩
    · rfl
    · rfl
    · rfl
    · rfl
    · exact absurd (by simp [hl]) hlen
    · rfl
  · intro hreg
    unfold Router.process
    simp only [bind, Except.bind]
    cases Mailbox.process mb self bn body mid with
    | error e => rfl
    | ok mbX =>
      dsimp only
      rcases strSplit '|' body with _ | ⟨p1, _ | ⟨p2, _ | ⟨p3, _ | ⟨p4, _ | ⟨p5, rest⟩⟩⟩⟩⟩
      · rfl
      · rfl
      · rfl
      · rfl
      · dsimp only
        cases parseDecimal p3 with
        | none => rfl
        | some q =>
          dsimp only
          cases toIntM p4 with
          | none => rfl
          | some i =>
            dsimp only
            rw [hreg]
            rfl
      · rfl

/-- Witness for C7: a two-field body is rejected as malformed, and a router
with an empty registry rejects even a well-formed body. -/
theorem C7_witness :
    Router.process rEx mbEx tokensEx "con_interchain_router" 9 "a|b" "m1" =
      Except.error "Invalid message format." ∧
    isOkB (Router.process rExEmpty mbEx tokensEx "con_interchain_router" 9
      "user1|user2|100|1" "m1") = false :=
  ⟨(C7_router_rejects_malformed_and_unregistered rEx mbEx tokensEx
      "con_interchain_router" 9 "a|b" "m1").1 (by decide) (by decide),
    (C7_router_rejects_malformed_and_unregistered rExEmpty mbEx tokensEx
      "con_interchain_router" 9 "user1|user2|100|1" "m1").2 rfl⟩

/-- C8: a successful Router.process always mints through the token
registered for the router's own local domain; two payloads identical except
for the originDomain field produce identical results, minting on the same
token instance. -/
theorem C8_mint_bound_to_local_domain_token :
    ∀ (r : RouterState) (mb : MailboxState) (tokens : String → Option TokenState)
      (self : String) (bn : Int) (body1 body2 mid snd rcp amt d1 d2 : String)
      (q : Rat) (i1 i2 : Int) (tk : TokenState),
    strSplit '|' body1 = [snd, rcp, amt, d1] →
    strSplit '|' body2 = [snd, rcp, amt, d2] →
    parseDecimal amt = some q →
    toIntM d1 = some i1 →
    toIntM d2 = some i2 →
    ¬ (mb.deliveries mid).blockNumber > 0 →
    r.tokensByDomain r.localDomain ≠ "" →
    tokens (r.tokensByDomain r.localDomain) = some tk →
    self = tk.routerName →
    Router.process r mb tokens self bn body1 mid =
      Except.ok ({ mb with deliveries := upd mb.deliveries mid ⟨some self, bn⟩ },
        upd tokens (r.tokensByDomain r.localDomain)
          (some { tk with balances := upd tk.balances rcp (tk.balances rcp + q) })) ∧
    Router.process r mb tokens self bn body2 mid =
      Except.ok ({ mb with deliveries := upd mb.deliveries mid ⟨some self, bn⟩ },
        upd tokens (r.tokensByDomain r.localDomain)
          (some { tk with balances := upd tk.balances rcp (tk.balances rcp + q) })) := by
  intro r mb tokens self bn body1 body2 mid snd rcp amt d1 d2 q i1 i2 tk
  intro hsp1 hsp2 hq hi1 hi2 hfresh hreg htk hauth
  exact ⟨router_process_success hsp1 hq hi1 hfresh hreg htk hauth,
    router_process_success hsp2 hq hi2 hfresh hreg htk hauth⟩

/-- Witness for C8: two bridging payloads that differ only in the claimed
origin domain mint on the token registered for the router's local domain. -/
theorem C8_witness :
    Router.process rEx mbEx tokensEx "con_interchain_router" 999
      "user1|user2|100|1" "m1" =
      Except.ok ({ mbEx with
          deliveries := upd mbEx.deliveries "m1" ⟨some "con_interchain_router", 999⟩ },
        upd tokensEx (rEx.tokensByDomain rEx.localDomain)
          (some { tokExR with
            balances := upd tokExR.balances "user2" (tokExR.balances "user2" + 100) })) ∧
    Router.process rEx mbEx tokensEx "con_interchain_router" 999
      "user1|user2|100|2" "m1" =
      Except.ok ({ mbEx with
          deliveries := upd mbEx.deliveries "m1" ⟨some "con_interchain_router", 999⟩ },
        upd tokensEx (rEx.tokensByDomain rEx.localDomain)
          (some { tokExR with
            balances := upd tokExR.balances "user2" (tokExR.balances "user2" + 100) })) :=
  C8_mint_bound_to_local_domain_token rEx mbEx tokensEx "con_interchain_router" 999
    "user1|user2|100|1" "user1|user2|100|2" "m1" "user1" "user2" "100" "1" "2"
    100 1 2 tokExR (by decide) (by decide) (by decide) (by decide) (by decide)
    (by decide) (by decide) rfl rfl

/-- C4: with a positive dispatch fee and sufficient allowance and balance,
dispatch succeeds, moves exactly the fee from the caller to the owner, and
advances the nonce by one; with insufficient allowance or balance it fails
(the per-call rollback then leaves the nonce unchanged). -/
theorem C4_fee_gating_and_nonce_accounting :
    ∀ (hash : String → String) (s : MailboxState) (cur : CurrencyState)
      (self c : String) (d : Int) (ra b : String),
    (0 < s.dispatchFee → s.dispatchFee ≤ cur.allowances c self →
      s.dispatchFee ≤ cur.balances c →
      Mailbox.dispatch hash s cur self c d ra b =
        Except.ok
          ({ s with
             nonce := s.nonce + 1,
             latestDispatchedId :=
               some (generate_message_id hash (build_message s s.localDomain c d ra b)) },
            { balances :=
                upd (upd cur.balances c (cur.balances c - s.dispatchFee)) s.owner
                  (upd cur.balances c (cur.balances c - s.dispatchFee) s.owner +
                    s.dispatchFee),
              allowances :=
                upd2 cur.allowances c self (cur.allowances c self - s.dispatchFee) },
            generate_message_id hash (build_message s s.localDomain c d ra b)) ∧
      (c ≠ s.owner →
        upd (upd cur.balances c (cur.balances c - s.dispatchFee)) s.owner
            (upd cur.balances c (cur.balances c - s.dispatchFee) s.owner + s.dispatchFee)
            c =
          cur.balances c - s.dispatchFee ∧
        upd (upd cur.balances c (cur.balances c - s.dispatchFee)) s.owner
            (upd cur.balances c (cur.balances c - s.dispatchFee) s.owner + s.dispatchFee)
            s.owner =
          cur.balances s.owner + s.dispatchFee)) ∧
    (0 < s.dispatchFee → cur.allowances c self < s.dispatchFee →
      Mailbox.dispatch hash s cur self c d ra b =
        Except.error "Not enough coins approved to send!") ∧
    (0 < s.dispatchFee → ¬ cur.allowances c self < s.dispatchFee →
      cur.balances c < s.dispatchFee →
      Mailbox.dispatch hash s cur self c d ra b =
        Except.error "Not enough coins to send!") := by
  intro hash s cur self c d ra b
  refine ⟨?_, ?_, ?_⟩
  · intro hf hal hba
    constructor
    · simp only [Mailbox.dispatch, bind, Except.bind, if_pos hf, Currency.transfer_from,
        if_neg (not_lt.mpr hal), if_neg (not_lt.mpr hba)]
    · intro hco
      refine ⟨?_, ?_⟩
      · rw [upd_ne _ _ _ hco, upd_same]
      · rw [upd_same, upd_ne _ _ _ (Ne.symm hco)]
  · intro hf hal
    simp only [Mailbox.dispatch, bind, Except.bind, if_pos hf, Currency.transfer_from,
      if_pos hal]
  · intro hf hal hba
    simp only [Mailbox.dispatch, bind, Except.bind, if_pos hf, Currency.transfer_from,
      if_neg hal, if_pos hba]

/-- Witness for C4: the fee-50 scenario of the tests (success with approved
funds, failure with no allowance, failure with allowance but no balance). -/
theorem C4_witness :
    (Mailbox.dispatch (fun s => s) mbExFee curEx "con_mailbox" "user1" 4321
        "recipientX" "fee test message" =
      Except.ok
        ({ mbExFee with
           nonce := mbExFee.nonce + 1,
           latestDispatchedId :=
             some (generate_message_id (fun s => s)
               (build_message mbExFee mbExFee.localDomain "user1" 4321 "recipientX"
                 "fee test message")) },
          { balances :=
              upd (upd curEx.balances "user1" (curEx.balances "user1" - mbExFee.dispatchFee))
                mbExFee.owner
                (upd curEx.balances "user1" (curEx.balances "user1" - mbExFee.dispatchFee)
                  mbExFee.owner + mbExFee.dispatchFee),
            allowances :=
              upd2 curEx.allowances "user1" "con_mailbox"
                (curEx.allowances "user1" "con_mailbox" - mbExFee.dispatchFee) },
          generate_message_id (fun s => s)
            (build_message mbExFee mbExFee.localDomain "user1" 4321 "recipientX"
              "fee test message")) ∧
      ("user1" ≠ mbExFee.owner →
        upd (upd curEx.balances "user1" (curEx.balances "user1" - mbExFee.dispatchFee))
            mbExFee.owner
            (upd curEx.balances "user1" (curEx.balances "user1" - mbExFee.dispatchFee)
              mbExFee.owner + mbExFee.dispatchFee) "user1" =
          curEx.balances "user1" - mbExFee.dispatchFee ∧
        upd (upd curEx.balances "user1" (curEx.balances "user1" - mbExFee.dispatchFee))
            mbExFee.owner
            (upd curEx.balances "user1" (curEx.balances "user1" - mbExFee.dispatchFee)
              mbExFee.owner + mbExFee.dispatchFee) mbExFee.owner =
          curEx.balances mbExFee.owner + mbExFee.dispatchFee)) ∧
    Mailbox.dispatch (fun s => s) mbExFee curEx0 "con_mailbox" "user1" 4321
        "recipientX" "fee test message" =
      Except.error "Not enough coins approved to send!" ∧
    Mailbox.dispatch (fun s => s) mbExFee curExA "con_mailbox" "user1" 4321
        "recipientX" "fee test message" =
      Except.error "Not enough coins to send!" :=
  ⟨(C4_fee_gating_and_nonce_accounting (fun s => s) mbExFee curEx "con_mailbox" "user1"
      4321 "recipientX" "fee test message").1 (by decide) (by decide) (by decide),
    (C4_fee_gating_and_nonce_accounting (fun s => s) mbExFee curEx0 "con_mailbox" "user1"
      4321 "recipientX" "fee test message").2.1 (by decide) (by decide),
    (C4_fee_gating_and_nonce_accounting (fun s => s) mbExFee curExA "con_mailbox" "user1"
      4321 "recipientX" "fee test message").2.2 (by decide) (by decide) (by decide)⟩

/-- C5 (amended): when the mailbox charges no dispatch fee, xTransfer from a
caller (other than the reserved burn account) whose balance covers the
positive amount succeeds: it debits the caller by the amount, credits
BRIDGE_BURNED by the amount, dispatches the payload
sender|recipient|amount|localDomain to the registered remote router
instance, and returns the resulting message identifier. -/
theorem C5_xTransfer_success_without_fee :
    ∀ (hash : String → String) (t : TokenState) (mb : MailboxState) (cur : CurrencyState)
      (self c : String) (d : Int) (rcp : String) (a : Rat),
    0 < a → a ≤ t.balances c → c ≠ "BRIDGE_BURNED" → mb.dispatchFee ≤ 0 →
    Token.xTransfer hash t mb cur self c d rcp a =
      Except.ok
        ({ t with
           balances :=
             upd (upd t.balances c (t.balances c - a)) "BRIDGE_BURNED"
               (upd t.balances c (t.balances c - a) "BRIDGE_BURNED" + a) },
          { mb with
            nonce := mb.nonce + 1,
            latestDispatchedId := some (generate_message_id hash
              (build_message mb mb.localDomain self d t.interchainRouter
                (c ++ "|" ++ rcp ++ "|" ++ decimalStr a ++ "|" ++ intStr t.localDomain))) },
          cur,
          generate_message_id hash
            (build_message mb mb.localDomain self d t.interchainRouter
              (c ++ "|" ++ rcp ++ "|" ++ decimalStr a ++ "|" ++ intStr t.localDomain))) ∧
    upd (upd t.balances c (t.balances c - a)) "BRIDGE_BURNED"
        (upd t.balances c (t.balances c - a) "BRIDGE_BURNED" + a) c = t.balances c - a ∧
    upd (upd t.balances c (t.balances c - a)) "BRIDGE_BURNED"
        (upd t.balances c (t.balances c - a) "BRIDGE_BURNED" + a) "BRIDGE_BURNED" =
      t.balances "BRIDGE_BURNED" + a := by
  intro hash t mb cur self c d rcp a h0 hle hnb hfee
  have hb : ¬ t.balances c < a := not_lt.mpr hle
  have hf : ¬ mb.dispatchFee > 0 := not_lt.mpr hfee
  refine ⟨?_, ?_, ?_⟩
  · simp only [Token.xTransfer, Token.burn, if_neg hb, bind, Except.bind]
    simp only [Mailbox.dispatch, bind, Except.bind, if_neg hf]
  · rw [upd_ne _ _ _ hnb, upd_same]
  · rw [upd_same, upd_ne _ _ _ (Ne.symm hnb)]

/-- Witness for C5 (amended): the test scenario, a fee-free transfer of 100
out of a balance of 500. -/
theorem C5_witness :
    Token.xTransfer (fun s => s) tokEx500 mbEx curEx0 "con_interchain_token" "user1"
        517164068468 "user2" 100 =
      Except.ok
        ({ tokEx500 with
           balances :=
             upd (upd tokEx500.balances "user1" (tokEx500.balances "user1" - 100))
               "BRIDGE_BURNED"
               (upd tokEx500.balances "user1" (tokEx500.balances "user1" - 100)
                 "BRIDGE_BURNED" + 100) },
          { mbEx with
            nonce := mbEx.nonce + 1,
            latestDispatchedId := some (generate_message_id (fun s => s)
              (build_message mbEx mbEx.localDomain "con_interchain_token" 517164068468
                tokEx500.interchainRouter
                ("user1" ++ "|" ++ "user2" ++ "|" ++ decimalStr 100 ++ "|" ++
                  intStr tokEx500.localDomain))) },
          curEx0,
          generate_message_id (fun s => s)
            (build_message mbEx mbEx.localDomain "con_interchain_token" 517164068468
              tokEx500.interchainRouter
              ("user1" ++ "|" ++ "user2" ++ "|" ++ decimalStr 100 ++ "|" ++
                intStr tokEx500.localDomain))) ∧
    upd (upd tokEx500.balances "user1" (tokEx500.balances "user1" - 100)) "BRIDGE_BURNED"
        (upd tokEx500.balances "user1" (tokEx500.balances "user1" - 100) "BRIDGE_BURNED"
          + 100) "user1" =
      tokEx500.balances "user1" - 100 ∧
    upd (upd tokEx500.balances "user1" (tokEx500.balances "user1" - 100)) "BRIDGE_BURNED"
        (upd tokEx500.balances "user1" (tokEx500.balances "user1" - 100) "BRIDGE_BURNED"
          + 100) "BRIDGE_BURNED" =
      tokEx500.balances "BRIDGE_BURNED" + 100 :=
  C5_xTransfer_success_without_fee (fun s => s) tokEx500 mbEx curEx0
    "con_interchain_token" "user1" 517164068468 "user2" 100
    (by decide) (by decide) (by decide) (by decide)

/-- Counterexample to C5 as stated: a state where the caller holds
500 ≥ 100 > 0 of the token, yet xTransfer fails, because the mailbox
charges a positive dispatch fee the token contract has no currency
allowance for. -/
theorem C5_counterexample :
    0 < (100 : Rat) ∧ (100 : Rat) ≤ tokEx500.balances "user1" ∧
    Token.xTransfer (fun s => s) tokEx500 mbExFee curEx0 "con_interchain_token" "user1"
        517164068468 "user2" 100 =
      Except.error "Not enough coins approved to send!" := by
  refine ⟨by decide, by decide, ?_⟩
  rfl

/-- C1: once a process call for an identifier has succeeded (at a positive
block height), at every state reachable by any sequence of mailbox-touching
operations the delivery record for that identifier is unchanged, and every
further process call for it, directly on the mailbox or through the router,
fails with the replay error; a failed call commits nothing, so the record
and all token balances stay as they were. -/
theorem C1_exactly_once_delivery :
    ∀ (s s2 : MailboxState) (cur : CurrencyState) (c : String) (bn : Int) (md m : String),
    Mailbox.process s c bn md m = Except.ok s2 → 0 < bn →
    ∀ (t : MailboxState) (tcur : CurrencyState), MailboxReach (s2, cur) (t, tcur) →
    t.deliveries m = s2.deliveries m ∧
    (∀ (c2 : String) (bn2 : Int) (md2 : String),
      Mailbox.process t c2 bn2 md2 m = Except.error "Mailbox: already delivered") ∧
    (∀ (r : RouterState) (tokens : String → Option TokenState) (self : String)
      (bn3 : Int) (body : String),
      Router.process r t tokens self bn3 body m =
        Except.error "Mailbox: already delivered") := by
  intro s s2 cur c bn md m h hbn t tcur hreach
  obtain ⟨hnot, hs2⟩ := process_ok_elim h
  have hpos : (s2.deliveries m).blockNumber > 0 := by
    rw [hs2]
    dsimp only
    rw [upd_same]
    exact hbn
  have hdel := mailboxReach_preserves_delivery (m := m) hpos hreach
  have hposT : (t.deliveries m).blockNumber > 0 := by
    rw [hdel]
    exact hpos
  refine ⟨hdel, ?_, ?_⟩
  · intro c2 bn2 md2
    simp only [Mailbox.process, if_pos hposT]
  · intro r tokens self bn3 body
    unfold Router.process
    simp only [bind, Except.bind, Mailbox.process, if_pos hposT]

/-- Witness for C1: after processing m1 on a fresh mailbox, both a direct
replay and a replay through the router fail with the replay error. -/
theorem C1_witness :
    mbC1.deliveries "m1" = mbC1.deliveries "m1" ∧
    Mailbox.process mbC1 "relayer" 9 "other-metadata" "m1" =
      Except.error "Mailbox: already delivered" ∧
    Router.process rEx mbC1 tokensEx "con_interchain_router" 9 "user1|user2|100|1" "m1" =
      Except.error "Mailbox: already delivered" :=
  have happ := C1_exactly_once_delivery mbEx mbC1 curEx0 "user2" 5 "md" "m1" rfl
    (by decide) mbC1 curEx0 (MailboxReach.refl (mbC1, curEx0))
  ⟨happ.1, happ.2.1 "relayer" 9 "other-metadata",
    happ.2.2 rEx tokensEx "con_interchain_router" 9 "user1|user2|100|1"⟩

/-- C3 (amended): restricted to operations with positive amounts, balances
stay non-negative at every reachable state, and a transfer, burn, or
transfer_from debit exceeding the available balance fails (with no state
mutation, by the per-call rollback). -/
theorem C3_balances_nonneg_for_positive_amounts :
    (∀ (s t : TokenState), TokenNonNeg s → TokenReach s t → TokenNonNeg t) ∧
    (∀ (s : TokenState) (c : String) (a : Rat) (rcp : String), 0 < a →
      s.balances c < a →
      Token.transfer s c a rcp = Except.error "Not enough coins to send!") ∧
    (∀ (s : TokenState) (c : String) (a : Rat), s.balances c < a →
      Token.burn s c a = Except.error "Insufficient balance to burn.") ∧
    (∀ (s : TokenState) (c : String) (a : Rat) (rcp main : String), 0 < a →
      a ≤ s.allowances main c → s.balances main < a →
      Token.transfer_from s c a rcp main = Except.error "Not enough coins to send!") := by
  refine ⟨fun s t => tokenReach_nonneg, ?_, ?_, ?_⟩
  · intro s c a rcp h0 hlt
    simp only [Token.transfer, if_pos h0, if_neg (not_le.mpr hlt)]
  · intro s c a hlt
    simp only [Token.burn, if_pos hlt]
  · intro s c a rcp main h0 hal hlt
    simp only [Token.transfer_from, if_pos h0, if_pos hal, if_neg (not_le.mpr hlt)]

/-- Witness for C3 (amended): the seeded all-zero state is non-negative and
stays so, and each of the three debits fails on an empty balance. -/
theorem C3_witness :
    TokenNonNeg tokEx ∧
    Token.transfer tokEx "user1" 5 "user2" = Except.error "Not enough coins to send!" ∧
    Token.burn tokEx "user1" 5 = Except.error "Insufficient balance to burn." ∧
    Token.transfer_from tokExAl "spender" 5 "user2" "user1" =
      Except.error "Not enough coins to send!" :=
  ⟨C3_balances_nonneg_for_positive_amounts.1 tokEx tokEx (fun _ => le_rfl)
      (TokenReach.refl tokEx),
    C3_balances_nonneg_for_positive_amounts.2.1 tokEx "user1" 5 "user2"
      (by decide) (by decide),
    C3_balances_nonneg_for_positive_amounts.2.2.1 tokEx "user1" 5 (by decide),
    C3_balances_nonneg_for_positive_amounts.2.2.2 tokExAl "spender" 5 "user2" "user1"
      (by decide) (by decide) (by decide)⟩

/-- Counterexample to C3 as stated: from the freshly seeded (hence
reachable) token state, burn with the negative amount -1 succeeds and
leaves the reserved BRIDGE_BURNED account with a negative balance, while
crediting the caller 1 out of nothing. -/
theorem C3_counterexample :
    Token.burn tokEx "alice" (-1) =
      Except.ok { tokEx with
        balances :=
          upd (upd tokEx.balances "alice" (tokEx.balances "alice" - (-1)))
            "BRIDGE_BURNED"
            (upd tokEx.balances "alice" (tokEx.balances "alice" - (-1)) "BRIDGE_BURNED" +
              (-1)) } ∧
    upd (upd tokEx.balances "alice" (tokEx.balances "alice" - (-1))) "BRIDGE_BURNED"
        (upd tokEx.balances "alice" (tokEx.balances "alice" - (-1)) "BRIDGE_BURNED" +
          (-1)) "BRIDGE_BURNED" < 0 := by
  constructor
  · rfl
  · rw [upd_same, upd_ne _ _ _ (by decide : "BRIDGE_BURNED" ≠ "alice")]
    norm_num [tokEx, Token.seed]

end Hyperlane
